import Mathlib

/-!
Verification of the freshness-classification and menu-projection engine of
`src/src-tauri/src/lib.rs` (brew-guide). The Rust functions are embedded
shallowly:

* `truncate_name`, `format_capacity` — the text formatters (lines 154–185);
* `parse_f64` — models `str::parse::<f64>()` restricted to plain decimal
  numerals (optional sign, digits, optional fraction; no exponent, no
  `inf`/`nan`), with the value kept as an exact rational (binary `f64`
  rounding is not modelled; no claim depends on it);
* `parseDate`, `dateToDays` — model `chrono::NaiveDate::parse_from_str`
  with format `%Y-%m-%d` (restricted to 4-digit years and 1–2 digit
  month/day fields) and the day-number line on which chrono's date
  subtraction `(today - date).num_days()` takes place;
* `calculate_freshness` — lines 98–151, with `chrono::Local::now()`
  hoisted into an explicit `today : Int` day-number parameter, `i32`
  modelled as `Int` and `f32` percentages as `ℚ`;
* `project` / `update_tray_with_beans` — the filtering, classification,
  grouping, sorting and menu-document construction of lines 187–357, with
  the tauri menu widget replaced by the plain `MenuNode` document it is
  handed;
* `stripBeanId` — the `id.strip_prefix("bean:").unwrap_or("")` handling of
  the menu-event callback in `run` (lines 476–488).
-/

/-- Width of one character in the tray display: 1 for ASCII
(`c.is_ascii()`, i.e. code point ≤ 127), 2 otherwise. From
`truncate_name`, line 160. -/
def charWidth (c : Char) : Nat :=
  if c.toNat ≤ 127 then 1 else 2

/-- Total display width of a character list. -/
def widthChars (cs : List Char) : Nat :=
  (cs.map charWidth).sum

/-- Total display width of a string (the width measure used by
`truncate_name`). -/
def displayWidth (s : String) : Nat :=
  widthChars s.data

/-- The character-accumulating loop of `truncate_name` (lines 158–167):
walks the characters keeping a running width; when the next character
would push the accumulated width past `maxW`, appends `'…'` and stops.
Returns the final width counter and the accumulated characters. -/
def truncLoop (maxW : Nat) : List Char → Nat → List Char → Nat × List Char
  | [], width, acc => (width, acc)
  | c :: cs, width, acc =>
    if maxW < width + charWidth c then (width, acc ++ ['…'])
    else truncLoop maxW cs (width + charWidth c) (acc ++ [c])

/-- Function `truncate_name` (lines 154–176): truncating loop followed by
space-padding of the internal width counter up to `maxW`. -/
def truncate_name (name : String) (maxW : Nat) : String :=
  let r := truncLoop maxW name.data 0 []
  ⟨r.2 ++ List.replicate (maxW - r.1) ' '⟩

/-- Truncation toward zero of a rational, modelling Rust's `as i32` cast
(line 183); saturation at the `i32` range is not modelled, no claim
reaches it. -/
def ratTrunc (q : ℚ) : Int :=
  Int.tdiv q.num (q.den : Int)

/-- Round-half-to-even of the rational `n / d` (`d > 0`), computed on the
integer level: the rounding Rust's `{:.2}` float formatting applies to
the scaled value. -/
def roundHalfEvenFrac (n d : Int) : Int :=
  let f := Int.fdiv n d
  let r2 := 2 * (n - f * d)
  if r2 < d then f
  else if d < r2 then f + 1
  else if f % 2 = 0 then f else f + 1

/-- Rendering of a non-negative rational with exactly two decimal places,
modelling `format!("{:.2}", q)` (line 181; only ever applied to values
`≥ 1`): round `q * 100` half-to-even to an integer `h`, print `h / 100`,
a dot, and the last two digits of `h`. -/
def twoDec (q : ℚ) : String :=
  let h := (roundHalfEvenFrac (q.num * 100) (q.den : Int)).toNat
  toString (h / 100) ++ "." ++ String.mk [Nat.digitChar (h / 10 % 10), Nat.digitChar (h % 10)]

/-- Function `format_capacity` (lines 179–185). -/
def format_capacity (grams : ℚ) : String :=
  if 1000 ≤ grams then twoDec (grams / 1000) ++ "kg"
  else toString (ratTrunc grams) ++ "g"

/-- Numeric value of a digit string (most significant first). -/
def digitsToNat (cs : List Char) : Nat :=
  cs.foldl (fun n c => n * 10 + (c.toNat - 48)) 0

/-- Models `str::parse::<f64>()` on plain decimal numerals: optional
sign, an integer part and an optional fractional part split by a single
dot, at least one digit overall. The value is the exact rational. -/
def parse_f64 (s : String) : Option ℚ :=
  let signed : Int × List Char :=
    match s.data with
    | '-' :: r => (-1, r)
    | '+' :: r => (1, r)
    | r => (1, r)
  match signed.2.splitOn '.' with
  | [ip] =>
    if !ip.isEmpty && ip.all Char.isDigit then
      some (mkRat (signed.1 * digitsToNat ip) 1)
    else none
  | [ip, fp] =>
    if (!ip.isEmpty || !fp.isEmpty) && ip.all Char.isDigit && fp.all Char.isDigit then
      some (mkRat (signed.1 * (digitsToNat ip * 10 ^ fp.length + digitsToNat fp)) (10 ^ fp.length))
    else none
  | _ => none

/-- Gregorian leap year, as used by chrono's calendar. -/
def isLeap (y : Int) : Bool :=
  y % 4 == 0 && (y % 100 != 0 || y % 400 == 0)

/-- Number of days in a month of a given year. -/
def daysInMonth (y : Int) (m : Nat) : Nat :=
  match m with
  | 1 => 31
  | 2 => if isLeap y then 29 else 28
  | 3 => 31
  | 4 => 30
  | 5 => 31
  | 6 => 30
  | 7 => 31
  | 8 => 31
  | 9 => 30
  | 10 => 31
  | 11 => 30
  | 12 => 31
  | _ => 0

/-- Models `chrono::NaiveDate::parse_from_str(s, "%Y-%m-%d")` (line 102),
restricted to 4-digit years and 1–2 digit month/day fields: three
dash-separated numeric fields forming a valid calendar date. Returns
`(year, month, day)` on success. -/
def parseDate (s : String) : Option (Int × Nat × Nat) :=
  match s.data.splitOn '-' with
  | [ys, ms, ds] =>
    if ys.length == 4 && ys.all Char.isDigit
        && decide (1 ≤ ms.length) && ms.length ≤ 2 && ms.all Char.isDigit
        && decide (1 ≤ ds.length) && ds.length ≤ 2 && ds.all Char.isDigit then
      let y : Int := digitsToNat ys
      let m := digitsToNat ms
      let d := digitsToNat ds
      if 1 ≤ m && m ≤ 12 && 1 ≤ d && d ≤ daysInMonth y m then some (y, m, d) else none
    else none
  | _ => none

/-- Day number of a calendar date (days since 1970-01-01, civil-calendar
algorithm). Chrono's `(today - date).num_days()` equals the difference of
the two dates' day numbers, so this is the line on which `today` lives. -/
def dateToDays (y : Int) (m d : Nat) : Int :=
  let yAdj : Int := if m ≤ 2 then y - 1 else y
  let era : Int := Int.fdiv yAdj 400
  let yoe : Int := yAdj - era * 400
  let mp : Nat := if 2 < m then m - 3 else m + 9
  let doy : Int := ((153 * mp + 2) / 5 + d - 1 : Nat)
  let doe : Int := yoe * 365 + yoe / 4 - yoe / 100 + doy
  era * 146097 + doe - 719468

/-- The `CoffeeBean` input record (lines 25–37). `i32` fields are
modelled as `Int`. -/
structure CoffeeBean where
  id : String
  name : String
  remaining : Option String
  capacity : Option String
  roast_date : Option String
  start_day : Option Int
  end_day : Option Int
  is_frozen : Option Bool
  is_in_transit : Option Bool
deriving DecidableEq

/-- Enum `FreshnessState` (lines 51–59). -/
inductive FreshnessState where
  | Resting
  | Optimal
  | Decline
  | Frozen
  | InTransit
  | Unknown
deriving DecidableEq

/-- Structure `BeanFreshnessInfo` (lines 40–48); the `f32` progress percentage is
modelled as `ℚ`. -/
structure BeanFreshnessInfo where
  bean : CoffeeBean
  days_since_roast : Int
  start_day : Int
  end_day : Int
  freshness_state : FreshnessState
  progress_percent : ℚ
deriving DecidableEq

/-- Function `calculate_freshness` (lines 98–151), with `chrono::Local::now()`
hoisted into the explicit day-number parameter `today`. The
`optimal_duration > 0.0` test on `f32` is expressed as the equivalent
integer comparison `0 < end_day - start_day`. -/
def calculate_freshness (today : Int) (bean : CoffeeBean) : BeanFreshnessInfo :=
  let days_since_roast : Int :=
    match bean.roast_date with
    | some rd =>
      match parseDate rd with
      | some (y, m, d) => today - dateToDays y m d
      | none => 0
    | none => 0
  let start_day := bean.start_day.getD 7
  let end_day := bean.end_day.getD 30
  let frozenFlag := bean.is_frozen.getD false
  let transitFlag := bean.is_in_transit.getD false
  let freshness_state :=
    if transitFlag then FreshnessState.InTransit
    else if frozenFlag then FreshnessState.Frozen
    else if bean.roast_date.isNone then FreshnessState.Unknown
    else if days_since_roast < start_day then FreshnessState.Resting
    else if days_since_roast ≤ end_day then FreshnessState.Optimal
    else FreshnessState.Decline
  let progress_percent : ℚ :=
    if 0 < end_day - start_day ∧ freshness_state = FreshnessState.Optimal then
      max 0 (min 100 (((days_since_roast - start_day : Int) : ℚ) / ((end_day - start_day : Int) : ℚ) * 100))
    else if end_day < days_since_roast then 100
    else 0
  { bean := bean
    days_since_roast := days_since_roast
    start_day := start_day
    end_day := end_day
    freshness_state := freshness_state
    progress_percent := progress_percent }

/-- The active filter of `update_tray_with_beans` (lines 189–198): keep a
record iff its `remaining` string is present and parses to a value
`> 0` (`parse().unwrap_or(0.0)` followed by `amount > 0.0`). -/
def isActive (b : CoffeeBean) : Bool :=
  match b.remaining with
  | some r => decide (0 < (parse_f64 r).getD 0)
  | none => false

/-- Stable insertion of `a` in front of the first element whose key is
not smaller; used to model Rust's stable ascending `sort_by`. -/
def insertKeyed {α : Type} (key : α → Int) (a : α) : List α → List α
  | [] => [a]
  | b :: bs => if key a ≤ key b then a :: b :: bs else b :: insertKeyed key a bs

/-- Stable ascending sort by an integer key, modelling
`Vec::sort_by(|a, b| key(a).cmp(&key(b)))` (lines 225–239). -/
def sortByKey {α : Type} (key : α → Int) : List α → List α
  | [] => []
  | x :: xs => insertKeyed key x (sortByKey key xs)

/-- The projection half of `update_tray_with_beans` (lines 189–246):
active filter, classification, the five state buckets with their sort
orders, and the aggregate statistics. -/
structure Projection where
  active : List BeanFreshnessInfo
  frozen_beans : List BeanFreshnessInfo
  optimal_beans : List BeanFreshnessInfo
  resting_beans : List BeanFreshnessInfo
  decline_beans : List BeanFreshnessInfo
  in_transit_beans : List BeanFreshnessInfo
  bean_count : Nat
  total_capacity : ℚ

/-- Builds the `Projection` exactly as lines 189–246 do. -/
def project (today : Int) (beans : List CoffeeBean) : Projection :=
  let active := (beans.filter isActive).map (calculate_freshness today)
  { active := active
    frozen_beans := active.filter (fun b => decide (b.freshness_state = FreshnessState.Frozen))
    optimal_beans := sortByKey (fun b => b.end_day - b.days_since_roast)
      (active.filter (fun b => decide (b.freshness_state = FreshnessState.Optimal)))
    resting_beans := sortByKey (fun b => b.start_day - b.days_since_roast)
      (active.filter (fun b => decide (b.freshness_state = FreshnessState.Resting)))
    decline_beans := sortByKey (fun b => b.days_since_roast)
      (active.filter (fun b => decide (b.freshness_state = FreshnessState.Decline)))
    in_transit_beans := active.filter (fun b => decide (b.freshness_state = FreshnessState.InTransit))
    bean_count := active.length
    total_capacity := (active.filterMap (fun b => b.bean.remaining.bind parse_f64)).sum }

/-- A row of a tray submenu: the `MenuItemBuilder::with_id(id, label)`
items built inside the per-group loops. -/
structure MenuRow where
  id : String
  label : String
deriving DecidableEq

/-- A node of the tray menu document handed to the widget toolkit. -/
inductive MenuNode where
  | item (id : String) (label : String) (enabled : Bool)
  | separator
  | submenu (title : String) (rows : List MenuRow)
deriving DecidableEq

/-- Group submenu title, e.g. `冷冻中（3 款）`. -/
def groupTitle (name : String) (n : Nat) : String :=
  name ++ "（" ++ toString n ++ " 款）"

/-- One group block of the menu: omitted when the bucket is empty,
otherwise a single submenu with one row per member (lines 269–328). -/
def groupNode (name : String) (mk : BeanFreshnessInfo → MenuRow) (l : List BeanFreshnessInfo) :
    List MenuNode :=
  if l.isEmpty then [] else [MenuNode.submenu (groupTitle name l.length) (l.map mk)]

/-- Right-justification to a minimum of two characters, modelling the
`{:>2}` format specifier. -/
def rjust2 (s : String) : String :=
  if s.length < 2 then ⟨List.replicate (2 - s.length) ' '⟩ ++ s else s

/-- Row of the `Frozen` and `InTransit` groups: truncated name only. -/
def plainRow (info : BeanFreshnessInfo) : MenuRow :=
  { id := "bean:" ++ info.bean.id
    label := truncate_name info.bean.name 16 }

/-- Row of the `Optimal` group: days left until window end, then name. -/
def optimalRow (info : BeanFreshnessInfo) : MenuRow :=
  { id := "bean:" ++ info.bean.id
    label := rjust2 (toString (info.end_day - info.days_since_roast)) ++ " 天 · "
      ++ truncate_name info.bean.name 16 }

/-- Row of the `Resting` group: days until window start, then name. -/
def restingRow (info : BeanFreshnessInfo) : MenuRow :=
  { id := "bean:" ++ info.bean.id
    label := rjust2 (toString (info.start_day - info.days_since_roast)) ++ " 天 · "
      ++ truncate_name info.bean.name 16 }

/-- Row of the `Decline` group: signed days past window end, then name. -/
def declineRow (info : BeanFreshnessInfo) : MenuRow :=
  { id := "bean:" ++ info.bean.id
    label := "+" ++ toString (info.days_since_roast - info.end_day) ++ " 天 · "
      ++ truncate_name info.bean.name 16 }

/-- The menu document built by `update_tray_with_beans` (lines 187–357):
stats header, the five group blocks in fixed order, the placeholder when
no bean is active, and the fixed footer. -/
def update_tray_with_beans (today : Int) (beans : List CoffeeBean) : List MenuNode :=
  let p := project today beans
  [MenuNode.item "stat_count" ("库存数量：" ++ toString p.bean_count ++ " 款") false,
   MenuNode.item "stat_capacity" ("库存容量：" ++ format_capacity p.total_capacity) false,
   MenuNode.separator]
  ++ groupNode "冷冻中" plainRow p.frozen_beans
  ++ groupNode "赏味期" optimalRow p.optimal_beans
  ++ groupNode "养豆期" restingRow p.resting_beans
  ++ groupNode "衰退期" declineRow p.decline_beans
  ++ groupNode "在途中" plainRow p.in_transit_beans
  ++ (if p.active.isEmpty then [MenuNode.item "empty" "暂无咖啡豆库存" false] else [])
  ++ [MenuNode.separator,
      MenuNode.item "open_app" "打开 Brew Guide" true,
      MenuNode.item "quit" "退出" true]

/-- Character-level core of the menu-event bean-id recovery. -/
def stripBeanChars : List Char → List Char
  | 'b' :: 'e' :: 'a' :: 'n' :: ':' :: rest => rest
  | _ => []

/-- Models `id.strip_prefix("bean:").unwrap_or("")` from the menu event
handler in `run` (line 478): the remainder after the fixed `bean:` tag,
or the empty string when the tag is absent. -/
def stripBeanId (s : String) : String :=
  ⟨stripBeanChars s.data⟩

/-- Title of a submenu node, `none` for plain items and separators. -/
def submenuTitle : MenuNode → Option String
  | MenuNode.submenu t _ => some t
  | _ => none

/-- All submenu rows of a document, in document order: exactly the bean
rows, since only group submenus carry rows. -/
def beanRows : List MenuNode → List MenuRow
  | [] => []
  | MenuNode.submenu _ rows :: rest => rows ++ beanRows rest
  | _ :: rest => beanRows rest

/-- Number of the five emitted state buckets that contain an info whose
underlying record is `b`. -/
def groupsContaining (p : Projection) (b : CoffeeBean) : Nat :=
  List.countP (fun g => g.any (fun i => decide (i.bean = b)))
    [p.frozen_beans, p.optimal_beans, p.resting_beans, p.decline_beans, p.in_transit_beans]

/-! ### Helper lemmas -/

theorem widthChars_append (a b : List Char) :
    widthChars (a ++ b) = widthChars a + widthChars b := by
  simp [widthChars]

theorem widthChars_replicate_space (n : Nat) :
    widthChars (List.replicate n ' ') = n := by
  simp [widthChars, List.map_replicate, charWidth]

theorem truncLoop_spec (maxW : Nat) (cs : List Char) :
    ∀ (w : Nat) (acc : List Char), w ≤ maxW →
      w ≤ (truncLoop maxW cs w acc).1 ∧ (truncLoop maxW cs w acc).1 ≤ maxW ∧
      widthChars (truncLoop maxW cs w acc).2 + w =
        widthChars acc + (truncLoop maxW cs w acc).1 +
          (if maxW < w + widthChars cs then 2 else 0) := by
  induction cs with
  | nil =>
    intro w acc hw
    simp [truncLoop, widthChars]
    omega
  | cons c cs ih =>
    intro w acc hw
    by_cases hc : maxW < w + charWidth c
    · have hcs : maxW < w + widthChars (c :: cs) := by
        have : widthChars (c :: cs) = charWidth c + widthChars cs := by
          simp [widthChars]
        omega
      simp [truncLoop, hc, hcs, widthChars_append]
      simp [widthChars, charWidth]
      omega
    · have hrec := ih (w + charWidth c) (acc ++ [c]) (by omega)
      have hcs : (maxW < w + widthChars (c :: cs)) ↔
          (maxW < w + charWidth c + widthChars cs) := by
        have : widthChars (c :: cs) = charWidth c + widthChars cs := by
          simp [widthChars]
        omega
      simp [truncLoop, hc] at hrec ⊢
      rw [widthChars_append] at hrec
      have hwc : widthChars [c] = charWidth c := by simp [widthChars]
      rcases hrec with ⟨h1, h2, h3⟩
      refine ⟨by omega, h2, ?_⟩
      by_cases hcond : maxW < w + widthChars (c :: cs)
      · rw [if_pos hcond]
        rw [if_pos (by omega : maxW < w + charWidth c + widthChars cs)] at h3
        omega
      · rw [if_neg hcond]
        rw [if_neg (by omega : ¬maxW < w + charWidth c + widthChars cs)] at h3
        omega

theorem mem_insertKeyed {α : Type} (key : α → Int) (a b : α) (l : List α) :
    b ∈ insertKeyed key a l ↔ b = a ∨ b ∈ l := by
  induction l with
  | nil => simp [insertKeyed]
  | cons x xs ih =>
    by_cases h : key a ≤ key x
    · simp [insertKeyed, h]
    · simp [insertKeyed, h, ih]
      tauto

theorem pairwise_insertKeyed {α : Type} (key : α → Int) (a : α) (l : List α)
    (h : l.Pairwise (fun x y => key x ≤ key y)) :
    (insertKeyed key a l).Pairwise (fun x y => key x ≤ key y) := by
  induction l with
  | nil => simp [insertKeyed]
  | cons x xs ih =>
    rcases List.pairwise_cons.1 h with ⟨hx, hxs⟩
    by_cases hle : key a ≤ key x
    · rw [insertKeyed, if_pos hle]
      refine List.pairwise_cons.2 ⟨?_, h⟩
      intro y hy
      rcases List.mem_cons.1 hy with rfl | hy
      · exact hle
      · exact le_trans hle (hx y hy)
    · rw [insertKeyed, if_neg hle]
      refine List.pairwise_cons.2 ⟨?_, ih hxs⟩
      intro y hy
      rcases (mem_insertKeyed key a y xs).1 hy with rfl | hy
      · exact le_of_not_le hle
      · exact hx y hy

theorem pairwise_sortByKey {α : Type} (key : α → Int) (l : List α) :
    (sortByKey key l).Pairwise (fun x y => key x ≤ key y) := by
  induction l with
  | nil => simp [sortByKey]
  | cons x xs ih => exact pairwise_insertKeyed key x _ ih

theorem mem_sortByKey {α : Type} (key : α → Int) (b : α) (l : List α) :
    b ∈ sortByKey key l ↔ b ∈ l := by
  induction l with
  | nil => simp [sortByKey]
  | cons x xs ih => simp [sortByKey, mem_insertKeyed, ih]

theorem bean_calculate_freshness (today : Int) (b : CoffeeBean) :
    (calculate_freshness today b).bean = b := rfl

theorem mem_project_active (today : Int) (beans : List CoffeeBean) (i : BeanFreshnessInfo) :
    i ∈ (project today beans).active ↔
      ∃ b, b ∈ beans ∧ isActive b = true ∧ calculate_freshness today b = i := by
  simp [project, List.mem_map, List.mem_filter]
  tauto

theorem any_bean_eq (today : Int) (beans : List CoffeeBean) (b : CoffeeBean)
    (hb : b ∈ beans) (s : FreshnessState) (g : List BeanFreshnessInfo)
    (hg : ∀ i, i ∈ g ↔ i ∈ (project today beans).active ∧ i.freshness_state = s) :
    (g.any fun i => decide (i.bean = b)) =
      (isActive b && decide ((calculate_freshness today b).freshness_state = s)) := by
  rw [Bool.eq_iff_iff]
  simp only [List.any_eq_true, decide_eq_true_eq, Bool.and_eq_true]
  constructor
  · rintro ⟨i, hig, rfl⟩
    rcases (hg i).1 hig with ⟨hia, hs⟩
    rcases (mem_project_active today beans i).1 hia with ⟨b', _, hact, rfl⟩
    rw [bean_calculate_freshness] at *
    exact ⟨hact, by rw [← hs]⟩
  · rintro ⟨hact, hs⟩
    refine ⟨calculate_freshness today b, ?_, bean_calculate_freshness today b⟩
    exact (hg _).2 ⟨(mem_project_active today beans _).2 ⟨b, hb, hact, rfl⟩, hs⟩

theorem calc_start_eq (today : Int) (bean : CoffeeBean) :
    (calculate_freshness today bean).start_day = bean.start_day.getD 7 := rfl

theorem calc_end_eq (today : Int) (bean : CoffeeBean) :
    (calculate_freshness today bean).end_day = bean.end_day.getD 30 := rfl

theorem calc_days_def (today : Int) (bean : CoffeeBean) :
    (calculate_freshness today bean).days_since_roast =
      (match bean.roast_date with
        | some rd =>
          match parseDate rd with
          | some (y, m, d) => today - dateToDays y m d
          | none => 0
        | none => 0) := rfl

theorem calc_state_def (today : Int) (bean : CoffeeBean) :
    (calculate_freshness today bean).freshness_state =
      (if bean.is_in_transit.getD false = true then FreshnessState.InTransit
       else if bean.is_frozen.getD false = true then FreshnessState.Frozen
       else if bean.roast_date.isNone = true then FreshnessState.Unknown
       else if (calculate_freshness today bean).days_since_roast < bean.start_day.getD 7 then
         FreshnessState.Resting
       else if (calculate_freshness today bean).days_since_roast ≤ bean.end_day.getD 30 then
         FreshnessState.Optimal
       else FreshnessState.Decline) := rfl

theorem calc_progress_def (today : Int) (bean : CoffeeBean) :
    (calculate_freshness today bean).progress_percent =
      (if 0 < bean.end_day.getD 30 - bean.start_day.getD 7 ∧
          (calculate_freshness today bean).freshness_state = FreshnessState.Optimal then
        max 0 (min 100
          ((((calculate_freshness today bean).days_since_roast - bean.start_day.getD 7 : Int) : ℚ) /
            ((bean.end_day.getD 30 - bean.start_day.getD 7 : Int) : ℚ) * 100))
       else if bean.end_day.getD 30 < (calculate_freshness today bean).days_since_roast then 100
       else 0) := rfl

theorem calc_days_dated (today : Int) (bean : CoffeeBean) (s : String) (y : Int) (m d : Nat)
    (hr : bean.roast_date = some s) (hp : parseDate s = some (y, m, d)) :
    (calculate_freshness today bean).days_since_roast = today - dateToDays y m d := by
  simp only [calc_days_def, hr, hp]

theorem calc_state_dated (today : Int) (bean : CoffeeBean) (s : String) (y : Int) (m d : Nat)
    (hr : bean.roast_date = some s) (hp : parseDate s = some (y, m, d))
    (ht : bean.is_in_transit.getD false = false)
    (hf : bean.is_frozen.getD false = false) :
    (calculate_freshness today bean).freshness_state =
      (if today - dateToDays y m d < bean.start_day.getD 7 then FreshnessState.Resting
       else if today - dateToDays y m d ≤ bean.end_day.getD 30 then FreshnessState.Optimal
       else FreshnessState.Decline) := by
  rw [calc_state_def, ht, hf, calc_days_dated today bean s y m d hr hp, hr]
  simp

theorem stripBeanId_roundTrip (s : String) : stripBeanId ("bean:" ++ s) = s := by
  have h : ("bean:" ++ s).data = 'b' :: 'e' :: 'a' :: 'n' :: ':' :: s.data := by
    simp [String.data_append]
  rw [stripBeanId, h]
  show (⟨s.data⟩ : String) = s
  rfl

/-! ### Claim theorems -/

/-- C2 (counterexample): a record whose roast date is present but fails to
parse (`"not-a-date"`), with the in-transit and frozen flags unset, gets
`daysSinceRoast = 0` but classifies as `Resting` — not `Unknown` as the
claim states: the code tests `roast_date.is_none()`, not parse failure. -/
theorem c2_counterexample :
    parseDate "not-a-date" = none ∧
    (calculate_freshness 0
      ⟨"b1", "Bean", some "500", none, some "not-a-date", none, none, none, none⟩).days_since_roast = 0 ∧
    (calculate_freshness 0
      ⟨"b1", "Bean", some "500", none, some "not-a-date", none, none, none, none⟩).freshness_state =
      FreshnessState.Resting ∧
    FreshnessState.Resting ≠ FreshnessState.Unknown := by
  decide

/-- C2 (amended): with both flags unset and no parseable roast date,
`daysSinceRoast = 0` always; the state is `Unknown` exactly when the
roast date is absent, while a present-but-unparsable roast date falls
through to the day-window rules evaluated at 0 days since roast. -/
theorem c2_unparsed_roast (bean : CoffeeBean) (today : Int)
    (ht : bean.is_in_transit.getD false = false)
    (hf : bean.is_frozen.getD false = false)
    (hp : bean.roast_date.bind parseDate = none) :
    (calculate_freshness today bean).days_since_roast = 0 ∧
    (calculate_freshness today bean).freshness_state =
      (if bean.roast_date = none then FreshnessState.Unknown
       else if 0 < bean.start_day.getD 7 then FreshnessState.Resting
       else if 0 ≤ bean.end_day.getD 30 then FreshnessState.Optimal
       else FreshnessState.Decline) := by
  cases hr : bean.roast_date with
  | none => simp [calculate_freshness, hr, ht, hf]
  | some rd =>
    have hpd : parseDate rd = none := by simpa [hr] using hp
    simp [calculate_freshness, hr, hpd, ht, hf]

/-- C2 (witness): a record with an absent roast date and flags unset. -/
theorem c2_witness :
    (calculate_freshness 5
      ⟨"b", "B", some "10", none, none, none, none, none, none⟩).days_since_roast = 0 ∧
    (calculate_freshness 5
      ⟨"b", "B", some "10", none, none, none, none, none, none⟩).freshness_state =
      (if (none : Option String) = none then FreshnessState.Unknown
       else if 0 < (7 : Int) then FreshnessState.Resting
       else if 0 ≤ (30 : Int) then FreshnessState.Optimal
       else FreshnessState.Decline) :=
  c2_unparsed_roast ⟨"b", "B", some "10", none, none, none, none, none, none⟩ 5 rfl rfl rfl

/-- C3 (counterexample): truncating `"abc"` to width 2 produces `"ab…"`,
whose display width is 4, not 2 — the appended ellipsis (width 2) is not
charged against the width budget. -/
theorem c3_counterexample :
    displayWidth (truncate_name "abc" 2) = 4 ∧ displayWidth (truncate_name "abc" 2) ≠ 2 := by
  decide

/-- C3 (amended): the truncated string's display width equals `w` exactly
when the input's display width fits (`displayWidth s ≤ w`, the no-truncation
case); when truncation occurs the output width is `w + 2`, because the
ellipsis is appended without being counted by the padding loop. -/
theorem c3_truncate_width (s : String) (w : Nat) :
    displayWidth (truncate_name s w) = if displayWidth s ≤ w then w else w + 2 := by
  obtain ⟨h1, h2, h3⟩ := truncLoop_spec w s.data 0 [] (Nat.zero_le _)
  have hmain : displayWidth (truncate_name s w) =
      widthChars (truncLoop w s.data 0 []).2 + (w - (truncLoop w s.data 0 []).1) := by
    show widthChars ((truncLoop w s.data 0 []).2 ++
      List.replicate (w - (truncLoop w s.data 0 []).1) ' ') = _
    rw [widthChars_append, widthChars_replicate_space]
  have h0 : widthChars ([] : List Char) = 0 := rfl
  rw [h0] at h3
  have hds : displayWidth s = widthChars s.data := rfl
  rw [hmain]
  by_cases hlt : w < 0 + widthChars s.data
  · rw [if_pos hlt] at h3
    rw [if_neg (by omega)]
    omega
  · rw [if_neg hlt] at h3
    rw [if_pos (by omega)]
    omega

/-- C4: the in-transit flag takes strict precedence — any record with
`is_in_transit = some true` classifies `InTransit` regardless of the
frozen flag, roast date and window. -/
theorem c4_in_transit_first (bean : CoffeeBean) (today : Int)
    (h : bean.is_in_transit = some true) :
    (calculate_freshness today bean).freshness_state = FreshnessState.InTransit := by
  simp [calculate_freshness, h]

/-- C4 (witness): a record that is simultaneously in-transit, frozen and
far past its window end still classifies `InTransit`. -/
theorem c4_witness :
    (calculate_freshness (dateToDays 2030 1 1)
      ⟨"b1", "Bean", some "500", none, some "2024-01-01", some 7, some 30,
        some true, some true⟩).freshness_state = FreshnessState.InTransit :=
  c4_in_transit_first _ _ rfl

/-- C5 (counterexample): with `start_day = 10 > end_day = 5` and
`daysSinceRoast = startDay = 10`, the record classifies `Decline`, not
`Optimal` as the claim demands. -/
theorem c5_counterexample :
    parseDate "2024-01-01" = some (2024, 1, 1) ∧
    (calculate_freshness (dateToDays 2024 1 11)
      ⟨"b1", "Bean", some "500", none, some "2024-01-01", some 10, some 5,
        none, none⟩).days_since_roast = 10 ∧
    (calculate_freshness (dateToDays 2024 1 11)
      ⟨"b1", "Bean", some "500", none, some "2024-01-01", some 10, some 5,
        none, none⟩).freshness_state = FreshnessState.Decline ∧
    FreshnessState.Decline ≠ FreshnessState.Optimal := by
  decide

/-- C5 (amended): for a record with a parseable roast date, both flags
unset, and a well-formed window (`startDay ≤ endDay`): at
`daysSinceRoast = startDay` and at `daysSinceRoast = endDay` the state is
`Optimal`; at `daysSinceRoast = endDay + 1` it is `Decline`. -/
theorem c5_window_boundaries (bean : CoffeeBean) (s : String) (y : Int) (m d : Nat)
    (hr : bean.roast_date = some s) (hp : parseDate s = some (y, m, d))
    (ht : bean.is_in_transit.getD false = false)
    (hf : bean.is_frozen.getD false = false)
    (hw : bean.start_day.getD 7 ≤ bean.end_day.getD 30) :
    (calculate_freshness (dateToDays y m d + bean.start_day.getD 7) bean).freshness_state =
      FreshnessState.Optimal ∧
    (calculate_freshness (dateToDays y m d + bean.end_day.getD 30) bean).freshness_state =
      FreshnessState.Optimal ∧
    (calculate_freshness (dateToDays y m d + bean.end_day.getD 30 + 1) bean).freshness_state =
      FreshnessState.Decline := by
  refine ⟨?_, ?_, ?_⟩ <;>
    rw [calc_state_dated _ bean s y m d hr hp ht hf]
  · rw [if_neg (by omega), if_pos (by omega)]
  · rw [if_neg (by omega), if_pos (by omega)]
  · rw [if_neg (by omega), if_neg (by omega)]

/-- C5 (witness): default window 7–30 with roast date 2024-03-05. -/
theorem c5_witness :
    (calculate_freshness (dateToDays 2024 3 5 + 7)
      ⟨"b", "B", some "10", none, some "2024-03-05", none, none, none, none⟩).freshness_state =
      FreshnessState.Optimal ∧
    (calculate_freshness (dateToDays 2024 3 5 + 30)
      ⟨"b", "B", some "10", none, some "2024-03-05", none, none, none, none⟩).freshness_state =
      FreshnessState.Optimal ∧
    (calculate_freshness (dateToDays 2024 3 5 + 30 + 1)
      ⟨"b", "B", some "10", none, some "2024-03-05", none, none, none, none⟩).freshness_state =
      FreshnessState.Decline :=
  c5_window_boundaries ⟨"b", "B", some "10", none, some "2024-03-05", none, none, none, none⟩
    "2024-03-05" 2024 3 5 rfl (by decide) rfl rfl (by decide)

/-- C10 (counterexample): a roast date one day in the future with
`end_day = -100`: `daysSinceRoast = -1 > endDay`, so the code reports
progress `100`, not `0` as the claim states. -/
theorem c10_counterexample :
    parseDate "2024-06-15" = some (2024, 6, 15) ∧
    dateToDays 2024 6 14 < dateToDays 2024 6 15 ∧
    (calculate_freshness (dateToDays 2024 6 14)
      ⟨"b1", "Bean", some "500", none, some "2024-06-15", none, some (-100),
        none, none⟩).days_since_roast = -1 ∧
    (calculate_freshness (dateToDays 2024 6 14)
      ⟨"b1", "Bean", some "500", none, some "2024-06-15", none, some (-100),
        none, none⟩).progress_percent = 100 ∧
    (100 : ℚ) ≠ 0 := by
  decide

/-- C10 (amended): a parseable roast date strictly later than `today`
(both flags unset) gives a negative `daysSinceRoast`; the state is
`Resting` whenever the effective `startDay` is non-negative (so always
under the default 7), and the progress percent is `0` provided
additionally `daysSinceRoast ≤ endDay` (always true under the default
`endDay = 30`; with `endDay < daysSinceRoast` the code reports 100). -/
theorem c10_future_roast (bean : CoffeeBean) (today : Int) (s : String) (y : Int) (m d : Nat)
    (hr : bean.roast_date = some s) (hp : parseDate s = some (y, m, d))
    (hfut : today < dateToDays y m d)
    (ht : bean.is_in_transit.getD false = false)
    (hf : bean.is_frozen.getD false = false) :
    (calculate_freshness today bean).days_since_roast < 0 ∧
    (0 ≤ bean.start_day.getD 7 →
      (calculate_freshness today bean).freshness_state = FreshnessState.Resting) ∧
    (0 ≤ bean.start_day.getD 7 →
      (calculate_freshness today bean).days_since_roast ≤ bean.end_day.getD 30 →
      (calculate_freshness today bean).progress_percent = 0) := by
  have hdays := calc_days_dated today bean s y m d hr hp
  refine ⟨?_, ?_, ?_⟩
  · rw [hdays]
    omega
  · intro hs
    rw [calc_state_dated today bean s y m d hr hp ht hf, if_pos (by omega)]
  · intro hs he
    rw [hdays] at he
    have hstate : (calculate_freshness today bean).freshness_state = FreshnessState.Resting := by
      rw [calc_state_dated today bean s y m d hr hp ht hf, if_pos (by omega)]
    rw [calc_progress_def]
    rw [if_neg ?hcond, if_neg ?hend]
    case hcond =>
      rintro ⟨-, hopt⟩
      rw [hstate] at hopt
      exact absurd hopt (by decide)
    case hend =>
      rw [hdays]
      omega

/-- C10 (witness): roast date 2024-06-15 seen from 2024-06-14 with all
optional fields defaulted. -/
theorem c10_witness :
    (calculate_freshness (dateToDays 2024 6 14)
      ⟨"b", "B", some "10", none, some "2024-06-15", none, none, none, none⟩).days_since_roast < 0 ∧
    (0 ≤ (7 : Int) →
      (calculate_freshness (dateToDays 2024 6 14)
        ⟨"b", "B", some "10", none, some "2024-06-15", none, none, none, none⟩).freshness_state =
        FreshnessState.Resting) ∧
    (0 ≤ (7 : Int) →
      (calculate_freshness (dateToDays 2024 6 14)
        ⟨"b", "B", some "10", none, some "2024-06-15", none, none, none, none⟩).days_since_roast ≤
        (30 : Int) →
      (calculate_freshness (dateToDays 2024 6 14)
        ⟨"b", "B", some "10", none, some "2024-06-15", none, none, none, none⟩).progress_percent = 0) :=
  c10_future_roast ⟨"b", "B", some "10", none, some "2024-06-15", none, none, none, none⟩
    (dateToDays 2024 6 14) "2024-06-15" 2024 6 15 rfl (by decide) (by decide) rfl rfl

theorem frozen_mem_iff (today : Int) (beans : List CoffeeBean) (i : BeanFreshnessInfo) :
    i ∈ (project today beans).frozen_beans ↔
      i ∈ (project today beans).active ∧ i.freshness_state = FreshnessState.Frozen := by
  rw [show (project today beans).frozen_beans = (project today beans).active.filter
    (fun b => decide (b.freshness_state = FreshnessState.Frozen)) from rfl]
  simp [List.mem_filter]

theorem optimal_mem_iff (today : Int) (beans : List CoffeeBean) (i : BeanFreshnessInfo) :
    i ∈ (project today beans).optimal_beans ↔
      i ∈ (project today beans).active ∧ i.freshness_state = FreshnessState.Optimal := by
  rw [show (project today beans).optimal_beans = sortByKey (fun b => b.end_day - b.days_since_roast)
    ((project today beans).active.filter
      (fun b => decide (b.freshness_state = FreshnessState.Optimal))) from rfl]
  rw [mem_sortByKey]
  simp [List.mem_filter]

theorem resting_mem_iff (today : Int) (beans : List CoffeeBean) (i : BeanFreshnessInfo) :
    i ∈ (project today beans).resting_beans ↔
      i ∈ (project today beans).active ∧ i.freshness_state = FreshnessState.Resting := by
  rw [show (project today beans).resting_beans = sortByKey (fun b => b.start_day - b.days_since_roast)
    ((project today beans).active.filter
      (fun b => decide (b.freshness_state = FreshnessState.Resting))) from rfl]
  rw [mem_sortByKey]
  simp [List.mem_filter]

theorem decline_mem_iff (today : Int) (beans : List CoffeeBean) (i : BeanFreshnessInfo) :
    i ∈ (project today beans).decline_beans ↔
      i ∈ (project today beans).active ∧ i.freshness_state = FreshnessState.Decline := by
  rw [show (project today beans).decline_beans = sortByKey (fun b => b.days_since_roast)
    ((project today beans).active.filter
      (fun b => decide (b.freshness_state = FreshnessState.Decline))) from rfl]
  rw [mem_sortByKey]
  simp [List.mem_filter]

theorem in_transit_mem_iff (today : Int) (beans : List CoffeeBean) (i : BeanFreshnessInfo) :
    i ∈ (project today beans).in_transit_beans ↔
      i ∈ (project today beans).active ∧ i.freshness_state = FreshnessState.InTransit := by
  rw [show (project today beans).in_transit_beans = (project today beans).active.filter
    (fun b => decide (b.freshness_state = FreshnessState.InTransit)) from rfl]
  simp [List.mem_filter]

/-- C1 (counterexample): an active record (remaining `"10"` parses to a
positive value) with no roast date and both flags unset classifies
`Unknown` and appears in none of the five emitted groups — not in
exactly one as the claim demands. -/
theorem c1_counterexample :
    isActive ⟨"b1", "Bean", some "10", none, none, none, none, none, none⟩ = true ∧
    groupsContaining
      (project 0 [⟨"b1", "Bean", some "10", none, none, none, none, none, none⟩])
      ⟨"b1", "Bean", some "10", none, none, none, none, none, none⟩ = 0 := by
  decide

/-- C1 (amended): for every input record, the number of emitted state
groups containing it is 1 exactly when the record is active (its
`remaining` parses to a value `> 0`) and its classified state is one of
the five emitted states (i.e. not `Unknown`); otherwise — inactive
records, and active records classified `Unknown` — it is 0. -/
theorem c1_partition (beans : List CoffeeBean) (today : Int) (b : CoffeeBean)
    (hb : b ∈ beans) :
    groupsContaining (project today beans) b =
      if isActive b = true ∧
          (calculate_freshness today b).freshness_state ≠ FreshnessState.Unknown
      then 1 else 0 := by
  have h1 := any_bean_eq today beans b hb FreshnessState.Frozen _ (frozen_mem_iff today beans)
  have h2 := any_bean_eq today beans b hb FreshnessState.Optimal _ (optimal_mem_iff today beans)
  have h3 := any_bean_eq today beans b hb FreshnessState.Resting _ (resting_mem_iff today beans)
  have h4 := any_bean_eq today beans b hb FreshnessState.Decline _ (decline_mem_iff today beans)
  have h5 := any_bean_eq today beans b hb FreshnessState.InTransit _ (in_transit_mem_iff today beans)
  rw [groupsContaining]
  rw [List.countP_cons, List.countP_cons, List.countP_cons, List.countP_cons, List.countP_cons,
    List.countP_nil, h1, h2, h3, h4, h5]
  cases hA : isActive b
  · simp [hA]
  · cases hS : (calculate_freshness today b).freshness_state <;> simp [hS]

/-- C1 (witness): a single frozen active record lies in exactly one
group. -/
theorem c1_witness :
    groupsContaining
      (project 0 [⟨"b1", "Bean", some "10", none, none, none, none, some true, none⟩])
      ⟨"b1", "Bean", some "10", none, none, none, none, some true, none⟩ = 1 := by
  rw [c1_partition [⟨"b1", "Bean", some "10", none, none, none, none, some true, none⟩] 0
    ⟨"b1", "Bean", some "10", none, none, none, none, some true, none⟩ (by decide)]
  decide

/-- C6: each of the three day-keyed groups of the projection is sorted
ascending by its key (`Optimal` by `endDay - daysSinceRoast`, `Resting`
by `startDay - daysSinceRoast`, `Decline` by `daysSinceRoast`); and the
concrete instance of the claim: three `Optimal` records with
`endDay - daysSinceRoast` equal to 5, 1, 3 are emitted as 1, then 3,
then 5. -/
theorem c6_group_sorting (beans : List CoffeeBean) (today : Int) :
    ((project today beans).optimal_beans.Pairwise fun a b =>
      a.end_day - a.days_since_roast ≤ b.end_day - b.days_since_roast) ∧
    ((project today beans).resting_beans.Pairwise fun a b =>
      a.start_day - a.days_since_roast ≤ b.start_day - b.days_since_roast) ∧
    ((project today beans).decline_beans.Pairwise fun a b =>
      a.days_since_roast ≤ b.days_since_roast) ∧
    ((project (dateToDays 2024 1 21)
        [⟨"b1", "A", some "10", none, some "2024-01-01", some 0, some 25, none, none⟩,
         ⟨"b2", "B", some "10", none, some "2024-01-01", some 0, some 21, none, none⟩,
         ⟨"b3", "C", some "10", none, some "2024-01-01", some 0, some 23, none, none⟩]).optimal_beans.map
      fun i => (i.bean.id, i.end_day - i.days_since_roast)) = [("b2", 1), ("b3", 3), ("b1", 5)] := by
  refine ⟨pairwise_sortByKey _ _, pairwise_sortByKey _ _, pairwise_sortByKey _ _, by decide⟩

theorem filterMap_submenuTitle_groupNode (n : String) (mk : BeanFreshnessInfo → MenuRow)
    (l : List BeanFreshnessInfo) :
    (groupNode n mk l).filterMap submenuTitle =
      if l.isEmpty then [] else [groupTitle n l.length] := by
  cases h : l.isEmpty <;> simp [groupNode, h, submenuTitle]

theorem item_not_mem_groupNode (a b : String) (c : Bool) (n : String)
    (mk : BeanFreshnessInfo → MenuRow) (l : List BeanFreshnessInfo) :
    MenuNode.item a b c ∉ groupNode n mk l := by
  cases h : l.isEmpty <;> simp [groupNode, h]

theorem beanRows_append (a b : List MenuNode) :
    beanRows (a ++ b) = beanRows a ++ beanRows b := by
  induction a with
  | nil => rfl
  | cons x xs ih => cases x <;> simp [beanRows, ih]

theorem beanRows_groupNode (n : String) (mk : BeanFreshnessInfo → MenuRow)
    (l : List BeanFreshnessInfo) :
    beanRows (groupNode n mk l) = l.map mk := by
  cases h : l.isEmpty
  · simp [groupNode, h, beanRows]
  · rw [List.isEmpty_iff] at h
    simp [groupNode, h, beanRows]

theorem beanRows_update (today : Int) (beans : List CoffeeBean) :
    beanRows (update_tray_with_beans today beans) =
      (project today beans).frozen_beans.map plainRow ++
      (project today beans).optimal_beans.map optimalRow ++
      (project today beans).resting_beans.map restingRow ++
      (project today beans).decline_beans.map declineRow ++
      (project today beans).in_transit_beans.map plainRow := by
  simp only [update_tray_with_beans, beanRows_append, beanRows_groupNode]
  cases hA : (project today beans).active.isEmpty <;> simp [hA, beanRows]

/-- C7: the document emits the non-empty groups as submenus in the fixed
order Frozen, Optimal, Resting, Decline, InTransit, omitting every empty
group; when the filtered active set is empty the whole group section is
replaced by the single disabled placeholder row between header and
footer; and the placeholder appears exactly in that case. -/
theorem c7_menu_document (beans : List CoffeeBean) (today : Int) :
    ((update_tray_with_beans today beans).filterMap submenuTitle =
      (([("冷冻中", (project today beans).frozen_beans),
         ("赏味期", (project today beans).optimal_beans),
         ("养豆期", (project today beans).resting_beans),
         ("衰退期", (project today beans).decline_beans),
         ("在途中", (project today beans).in_transit_beans)].filter
           fun g => !g.2.isEmpty).map fun g => groupTitle g.1 g.2.length)) ∧
    ((project today beans).active = [] →
      update_tray_with_beans today beans =
        [MenuNode.item "stat_count" "库存数量：0 款" false,
         MenuNode.item "stat_capacity" "库存容量：0g" false,
         MenuNode.separator,
         MenuNode.item "empty" "暂无咖啡豆库存" false,
         MenuNode.separator,
         MenuNode.item "open_app" "打开 Brew Guide" true,
         MenuNode.item "quit" "退出" true]) ∧
    (MenuNode.item "empty" "暂无咖啡豆库存" false ∈ update_tray_with_beans today beans ↔
      (project today beans).active = []) := by
  have hempty : (project today beans).active = [] →
      update_tray_with_beans today beans =
        [MenuNode.item "stat_count" "库存数量：0 款" false,
         MenuNode.item "stat_capacity" "库存容量：0g" false,
         MenuNode.separator,
         MenuNode.item "empty" "暂无咖啡豆库存" false,
         MenuNode.separator,
         MenuNode.item "open_app" "打开 Brew Guide" true,
         MenuNode.item "quit" "退出" true] := by
    intro h
    have e1 : (project today beans).frozen_beans = [] := by
      rw [show (project today beans).frozen_beans = (project today beans).active.filter
        (fun b => decide (b.freshness_state = FreshnessState.Frozen)) from rfl, h]
      rfl
    have e2 : (project today beans).optimal_beans = [] := by
      rw [show (project today beans).optimal_beans =
        sortByKey (fun b => b.end_day - b.days_since_roast)
          ((project today beans).active.filter
            (fun b => decide (b.freshness_state = FreshnessState.Optimal))) from rfl, h]
      rfl
    have e3 : (project today beans).resting_beans = [] := by
      rw [show (project today beans).resting_beans =
        sortByKey (fun b => b.start_day - b.days_since_roast)
          ((project today beans).active.filter
            (fun b => decide (b.freshness_state = FreshnessState.Resting))) from rfl, h]
      rfl
    have e4 : (project today beans).decline_beans = [] := by
      rw [show (project today beans).decline_beans =
        sortByKey (fun b => b.days_since_roast)
          ((project today beans).active.filter
            (fun b => decide (b.freshness_state = FreshnessState.Decline))) from rfl, h]
      rfl
    have e5 : (project today beans).in_transit_beans = [] := by
      rw [show (project today beans).in_transit_beans = (project today beans).active.filter
        (fun b => decide (b.freshness_state = FreshnessState.InTransit)) from rfl, h]
      rfl
    have ecnt : (project today beans).bean_count = 0 := by
      rw [show (project today beans).bean_count = (project today beans).active.length from rfl, h]
      rfl
    have ecap : (project today beans).total_capacity = 0 := by
      rw [show (project today beans).total_capacity =
        ((project today beans).active.filterMap
          (fun b => b.bean.remaining.bind parse_f64)).sum from rfl, h]
      rfl
    simp only [update_tray_with_beans, e1, e2, e3, e4, e5, ecnt, ecap, h]
    decide
  refine ⟨?_, hempty, ?_⟩
  · simp only [update_tray_with_beans, List.filterMap_append, filterMap_submenuTitle_groupNode]
    cases hF : (project today beans).frozen_beans.isEmpty <;>
      cases hO : (project today beans).optimal_beans.isEmpty <;>
      cases hR : (project today beans).resting_beans.isEmpty <;>
      cases hD : (project today beans).decline_beans.isEmpty <;>
      cases hT : (project today beans).in_transit_beans.isEmpty <;>
      cases hA : (project today beans).active.isEmpty <;>
      simp [hF, hO, hR, hD, hT, hA, submenuTitle]
  · constructor
    · intro hmem
      cases hA : (project today beans).active.isEmpty
      · exfalso
        simp only [update_tray_with_beans, hA] at hmem
        simp [item_not_mem_groupNode] at hmem
      · exact List.isEmpty_iff.1 hA
    · intro h
      rw [hempty h]
      decide

/-- C7 (witness): the empty input list yields the placeholder document. -/
theorem c7_witness :
    update_tray_with_beans 0 [] =
      [MenuNode.item "stat_count" "库存数量：0 款" false,
       MenuNode.item "stat_capacity" "库存容量：0g" false,
       MenuNode.separator,
       MenuNode.item "empty" "暂无咖啡豆库存" false,
       MenuNode.separator,
       MenuNode.item "open_app" "打开 Brew Guide" true,
       MenuNode.item "quit" "退出" true] :=
  (c7_menu_document [] 0).2.1 rfl

/-- C8: every bean row the document emits carries the action identifier
`bean:` concatenated with the underlying record's identifier, unmodified,
and the menu-event handler's tag stripping recovers exactly that record
identifier. -/
theorem c8_bean_row_ids (beans : List CoffeeBean) (today : Int) (r : MenuRow)
    (hr : r ∈ beanRows (update_tray_with_beans today beans)) :
    ∃ i, i ∈ (project today beans).active ∧ r.id = "bean:" ++ i.bean.id ∧
      stripBeanId r.id = i.bean.id := by
  rw [beanRows_update] at hr
  simp only [List.mem_append, List.mem_map] at hr
  rcases hr with ((((⟨i, hi, rfl⟩ | ⟨i, hi, rfl⟩) | ⟨i, hi, rfl⟩) | ⟨i, hi, rfl⟩) | ⟨i, hi, rfl⟩)
  · exact ⟨i, ((frozen_mem_iff today beans i).1 hi).1, rfl, stripBeanId_roundTrip _⟩
  · exact ⟨i, ((optimal_mem_iff today beans i).1 hi).1, rfl, stripBeanId_roundTrip _⟩
  · exact ⟨i, ((resting_mem_iff today beans i).1 hi).1, rfl, stripBeanId_roundTrip _⟩
  · exact ⟨i, ((decline_mem_iff today beans i).1 hi).1, rfl, stripBeanId_roundTrip _⟩
  · exact ⟨i, ((in_transit_mem_iff today beans i).1 hi).1, rfl, stripBeanId_roundTrip _⟩

/-- C8 (witness): the single frozen bean's row has id `bean:b1`, and
stripping recovers `b1`. -/
theorem c8_witness :
    ∃ i, i ∈ (project 0 [⟨"b1", "Bean", some "10", none, none, none, none, some true, none⟩]).active ∧
      (MenuRow.mk "bean:b1" (truncate_name "Bean" 16)).id = "bean:" ++ i.bean.id ∧
      stripBeanId (MenuRow.mk "bean:b1" (truncate_name "Bean" 16)).id = i.bean.id :=
  c8_bean_row_ids [⟨"b1", "Bean", some "10", none, none, none, none, some true, none⟩] 0
    (MenuRow.mk "bean:b1" (truncate_name "Bean" 16)) (by decide)

/-- Digits produced by `Nat.digitChar` on a residue mod 10 are decimal
digits. -/
theorem isDigit_digitChar_mod (m : Nat) : (Nat.digitChar (m % 10)).isDigit = true := by
  have hball : ∀ k < 10, (Nat.digitChar k).isDigit = true := by decide
  exact hball _ (Nat.mod_lt _ (by norm_num))

/-- C9: the capacity formatter renders 999 as `999g`, 1000 as `1.00kg`,
2500 as `2.50kg`; any value below 1000 as the truncated (toward zero,
not rounded — witnessed by 999.6 ↦ `999g`) integer followed by `g`; and
any value at or above 1000 as a number with exactly two decimal digits
followed by `kg`. -/
theorem c9_format_capacity :
    format_capacity 999 = "999g" ∧
    format_capacity 1000 = "1.00kg" ∧
    format_capacity 2500 = "2.50kg" ∧
    format_capacity (mkRat 4998 5) = "999g" ∧
    (∀ g : ℚ, g < 1000 → format_capacity g = toString (ratTrunc g) ++ "g") ∧
    (∀ g : ℚ, 1000 ≤ g → ∃ n : Nat, ∃ c1 c2 : Char,
      format_capacity g = toString n ++ "." ++ String.mk [c1, c2] ++ "kg" ∧
      c1.isDigit = true ∧ c2.isDigit = true) := by
  have hkg : ∀ g : ℚ, 1000 ≤ g → format_capacity g = twoDec (g / 1000) ++ "kg" := by
    intro g hg
    rw [format_capacity, if_pos hg]
  refine ⟨by decide, ?_, ?_, by decide, ?_, ?_⟩
  · rw [hkg 1000 (by decide), show (1000 : ℚ) / 1000 = 1 by norm_num]
    decide
  · rw [hkg 2500 (by decide), show (2500 : ℚ) / 1000 = mkRat 5 2 by
      rw [Rat.mkRat_eq_div]; norm_num]
    decide
  · intro g hg
    rw [format_capacity, if_neg (not_le.2 hg)]
  · intro g hg
    rw [hkg g hg]
    refine ⟨(roundHalfEvenFrac ((g / 1000).num * 100) ((g / 1000).den : Int)).toNat / 100,
      Nat.digitChar ((roundHalfEvenFrac ((g / 1000).num * 100) ((g / 1000).den : Int)).toNat / 10 % 10),
      Nat.digitChar ((roundHalfEvenFrac ((g / 1000).num * 100) ((g / 1000).den : Int)).toNat % 10),
      rfl, isDigit_digitChar_mod _, isDigit_digitChar_mod _⟩

/-- C9 (witness): instantiation of the two conditional branches at 500
and 1200 grams. -/
theorem c9_witness :
    format_capacity 500 = toString (ratTrunc 500) ++ "g" ∧
    ∃ n : Nat, ∃ c1 c2 : Char,
      format_capacity 1200 = toString n ++ "." ++ String.mk [c1, c2] ++ "kg" ∧
      c1.isDigit = true ∧ c2.isDigit = true :=
  ⟨c9_format_capacity.2.2.2.2.1 500 (by decide),
   c9_format_capacity.2.2.2.2.2 1200 (by decide)⟩
